import Mathlib

/-!
# Verification of the Belchertown skin chart-data compiler

Shallow embedding of `bin/user/belchertown.py` (class
`HighchartsJsonGenerator`), covering the series-data pipeline of
`run`, `_getObservationData`, `_roundNone`, `_create_windRose_data`
and `_highchartsSeriesOptionsToInt`.  Numeric values fetched from the
store are modelled as exact rationals; Python `None` is `Option.none`.
The source is Python 2 (`except Exception, e`), so `round` is
round-half-away-from-zero and `int` truncates toward zero.
-/

set_option autoImplicit false

namespace Belchertown

/-- Python 2 `round(q)` to an integer: round half away from zero. -/
def pyRound (q : ℚ) : ℤ :=
  if 0 ≤ q then ⌊q + 1/2⌋ else ⌈q - 1/2⌉

/-- Python 2 `round(q, n)`: round half away from zero at `n` decimal places. -/
def pyRoundPlaces (q : ℚ) (n : ℕ) : ℚ :=
  (pyRound (q * (10:ℚ)^n) : ℚ) / (10:ℚ)^n

/-- Python `int(q)` on a number: truncation toward zero. -/
def pyInt (q : ℚ) : ℤ :=
  if 0 ≤ q then ⌊q⌋ else ⌈q⌉

/--
Embeds the `rainTotal` branch of `_getObservationData` (the special
rain-bucket-tip counter), inner loop.  `acc` is the running `rain_count`
carried unrounded; each input contributes `0.0` when it is null (the
source also maps the empty string to `0.0`; vector elements fetched
from the store are floats or `None`, so that guard is vacuous here) and
`round(rain_count, 2)` is emitted for every input point.
-/
def rainGo (acc : ℚ) : List (Option ℚ) → List ℚ
  | [] => []
  | v :: rest =>
      let acc' := acc + v.getD 0
      pyRoundPlaces acc' 2 :: rainGo acc' rest

/-- The full rain counter over a fetched vector: `rain_count` starts at `0`. -/
def rainCounterData (vals : List (Option ℚ)) : List ℚ :=
  rainGo 0 vals

/--
Modelled from the spec (§4.5 RainAccumulator): iterate raw values in
order, treat null as 0, keep a running sum that never resets, round the
running sum to the observation's rounding precision `prec` at each
step, emit one point per input point.  This follows the spec's words
(with the precision a parameter) for comparison with `rainCounterData`,
which is translated from the source.
-/
def rainAccumulatorSpecGo (prec : ℕ) (acc : ℚ) : List (Option ℚ) → List ℚ
  | [] => []
  | v :: rest =>
      let acc' := acc + v.getD 0
      pyRoundPlaces acc' prec :: rainAccumulatorSpecGo prec acc' rest

/-- Modelled from the spec: the RainAccumulator at rounding precision `prec`. -/
def rainAccumulatorSpec (prec : ℕ) (vals : List (Option ℚ)) : List ℚ :=
  rainAccumulatorSpecGo prec 0 vals

/-!
## Wind rose (`windRose` branch of `_getObservationData`,
`_create_windRose_data`, and the percentage normalization)
-/

/--
The compass bucket picked by `_create_windRose_data`:
`int((windDir + 11.25) / 22.5) % 16`.  Python `int` truncates toward
zero and `%` on a positive modulus yields a non-negative result, as
does `Int.emod`.
-/
def windroseIndex (d : ℚ) : ℕ :=
  ((pyInt ((d + 11.25) / 22.5)) % 16).toNat

/--
Embedding of `_create_windRose_data(windDirList, windSpeedList)`: start from sixteen
zeroes, add each sample's speed to the bucket of its direction when
both are non-null, then round every bucket to one decimal place.  The
two parallel source lists are always built pairwise by the caller, so
the embedding takes the `(direction, speed)` pairs directly.
-/
def create_windRose_data (samples : List (Option ℚ × Option ℚ)) : List ℚ :=
  let acc := samples.foldl (fun ws p =>
    match p.1, p.2 with
    | some d, some s => ws.set (windroseIndex d) (ws.getD (windroseIndex d) 0 + s)
    | _, _ => ws) (List.replicate 16 (0:ℚ))
  acc.map (fun v => pyRoundPlaces v 1)

/-- Python 2 `x < b` where `x` may be `None`: `None` compares below every number. -/
def pyLtN (a : Option ℚ) (b : ℚ) : Bool :=
  match a with
  | none => true
  | some q => decide (q < b)

/-- Python 2 `x >= b` where `x` may be `None`: false when `x` is `None`. -/
def pyGeN (a : Option ℚ) (b : ℚ) : Bool :=
  match a with
  | none => false
  | some q => decide (b ≤ q)

/-- Python 2 `x <= b` where `x` may be `None`: true when `x` is `None`. -/
def pyLeN (a : Option ℚ) (b : ℚ) : Bool :=
  match a with
  | none => true
  | some q => decide (q ≤ b)

/--
The Beaufort-style speed-bin chain of the `windRose` branch: the
`if/elif` ladder per wind-speed unit.  Returns the group index
`0`–`6`, or `none` when no branch of the ladder matches (such a sample
is appended to no group list).
-/
def beaufortBin (unit : String) (s : Option ℚ) : Option (Fin 7) :=
  if unit = "mile_per_hour" ∨ unit = "mile_per_hour2" then
    if pyLtN s 1 then some 0
    else if pyGeN s 1 && pyLeN s 3 then some 1
    else if pyGeN s 4 && pyLeN s 7 then some 2
    else if pyGeN s 8 && pyLeN s 12 then some 3
    else if pyGeN s 13 && pyLeN s 18 then some 4
    else if pyGeN s 19 && pyLeN s 24 then some 5
    else if pyGeN s 25 then some 6
    else none
  else if unit = "km_per_hour" ∨ unit = "km_per_hour2" then
    if pyLtN s 2 then some 0
    else if pyGeN s 2 && pyLeN s 5 then some 1
    else if pyGeN s 6 && pyLeN s 11 then some 2
    else if pyGeN s 12 && pyLeN s 19 then some 3
    else if pyGeN s 20 && pyLeN s 28 then some 4
    else if pyGeN s 29 && pyLeN s 38 then some 5
    else if pyGeN s 39 then some 6
    else none
  else if unit = "meter_per_second" ∨ unit = "meter_per_second2" then
    if pyLtN s 0.5 then some 0
    else if pyGeN s 0.5 && pyLeN s 1.5 then some 1
    else if pyGeN s 1.6 && pyLeN s 3.3 then some 2
    else if pyGeN s 3.4 && pyLeN s 5.5 then some 3
    else if pyGeN s 5.6 && pyLeN s 7.9 then some 4
    else if pyGeN s 8 && pyLeN s 10.7 then some 5
    else if pyGeN s 10.8 then some 6
    else none
  else if unit = "knot" ∨ unit = "knot2" then
    if pyLtN s 1 then some 0
    else if pyGeN s 1 && pyLeN s 3 then some 1
    else if pyGeN s 4 && pyLeN s 6 then some 2
    else if pyGeN s 7 && pyLeN s 10 then some 3
    else if pyGeN s 11 && pyLeN s 16 then some 4
    else if pyGeN s 17 && pyLeN s 21 then some 5
    else if pyGeN s 22 then some 6
    else none
  else none

/--
The mph bin conditions as written in the source, one predicate per
group, taken out of their `elif` context.
-/
def mphBinPred (i : Fin 7) (q : ℚ) : Prop :=
  match i with
  | 0 => q < 1
  | 1 => 1 ≤ q ∧ q ≤ 3
  | 2 => 4 ≤ q ∧ q ≤ 7
  | 3 => 8 ≤ q ∧ q ≤ 12
  | 4 => 13 ≤ q ∧ q ≤ 18
  | 5 => 19 ≤ q ∧ q ≤ 24
  | 6 => 25 ≤ q

/--
The km/h bin conditions as written in the source, one predicate per
group, taken out of their `elif` context.
-/
def kphBinPred (i : Fin 7) (q : ℚ) : Prop :=
  match i with
  | 0 => q < 2
  | 1 => 2 ≤ q ∧ q ≤ 5
  | 2 => 6 ≤ q ∧ q ≤ 11
  | 3 => 12 ≤ q ∧ q ≤ 19
  | 4 => 20 ≤ q ∧ q ≤ 28
  | 5 => 29 ≤ q ∧ q ≤ 38
  | 6 => 39 ≤ q

/--
The m/s bin conditions as written in the source, one predicate per
group, taken out of their `elif` context.
-/
def mpsBinPred (i : Fin 7) (q : ℚ) : Prop :=
  match i with
  | 0 => q < 0.5
  | 1 => 0.5 ≤ q ∧ q ≤ 1.5
  | 2 => 1.6 ≤ q ∧ q ≤ 3.3
  | 3 => 3.4 ≤ q ∧ q ≤ 5.5
  | 4 => 5.6 ≤ q ∧ q ≤ 7.9
  | 5 => 8 ≤ q ∧ q ≤ 10.7
  | 6 => 10.8 ≤ q

/--
The knot bin conditions as written in the source, one predicate per
group, taken out of their `elif` context.
-/
def knotBinPred (i : Fin 7) (q : ℚ) : Prop :=
  match i with
  | 0 => q < 1
  | 1 => 1 ≤ q ∧ q ≤ 3
  | 2 => 4 ≤ q ∧ q ≤ 6
  | 3 => 7 ≤ q ∧ q ≤ 10
  | 4 => 11 ≤ q ∧ q ≤ 16
  | 5 => 17 ≤ q ∧ q ≤ 21
  | 6 => 22 ≤ q

/--
The bin condition of group `i` for a given wind-speed unit, following
the unit dispatch of the source's ladder.
-/
def speedBinPred (unit : String) (i : Fin 7) (q : ℚ) : Prop :=
  if unit = "mile_per_hour" ∨ unit = "mile_per_hour2" then mphBinPred i q
  else if unit = "km_per_hour" ∨ unit = "km_per_hour2" then kphBinPred i q
  else if unit = "meter_per_second" ∨ unit = "meter_per_second2" then mpsBinPred i q
  else if unit = "knot" ∨ unit = "knot2" then knotBinPred i q
  else False

/-- The grand total `wind_sum` over the seven 16-bucket group lists. -/
def totalMag (gs : List (List ℚ)) : ℚ :=
  (gs.map List.sum).sum

/--
The percentage-normalization step: when `wind_sum > 0` every bucket of
every group becomes `round(value / wind_sum * 100)`; otherwise the
buckets are left untouched.
-/
def windRoseNormalize (gs : List (List ℚ)) : List (List ℚ) :=
  if 0 < totalMag gs then
    gs.map (List.map (fun v => ((pyRound (v / totalMag gs * 100) : ℤ) : ℚ)))
  else gs

/-- The per-unit speed-range labels (`group_k_speedRange`). -/
def binRangeLabel (unit : String) (i : Fin 7) : String :=
  if unit = "mile_per_hour" ∨ unit = "mile_per_hour2" then
    ["< 1", "1-3", "4-7", "8-12", "13-18", "19-24", "25+"].getD i ("")
  else if unit = "km_per_hour" ∨ unit = "km_per_hour2" then
    ["< 2", "2-5", "6-11", "12-19", "20-28", "29-38", "39+"].getD i ("")
  else if unit = "meter_per_second" ∨ unit = "meter_per_second2" then
    ["< 0.5", "0.5-1.5", "1.6-3.3", "3.4-5.5", "5.5-7.9", "8-10.7", "10.8+"].getD i ("")
  else if unit = "knot" ∨ unit = "knot2" then
    ["< 1", "1-3", "4-6", "7-10", "11-16", "17-21", "22+"].getD i ("")
  else ""

/--
One wind-rose output series.  The constant styling fields of the
source objects (`type`, `_colorIndex`, `zIndex`, `stacking`,
`fillOpacity`) are fixed literals and are omitted from the model.
-/
structure WRSeries where
  name : String
  data : List ℚ
deriving DecidableEq

/--
Modelled from the spec (§4.3): the provider `getSqlVectors` (weewx,
not part of this repository) signals that a span holds no samples by
returning a value tuple whose unit slot is `None`; the source tests
`windDir_vt[1] == None or windSpeed_vt[1] == None` for exactly this.
-/
def fetchIsEmpty (unit : Option String) : Prop :=
  unit = none

/--
The whole `windRose` branch of `_getObservationData`.  `unitLabel` is
the skin's unit-label table; `speedRound` the decimal precision parsed
from the skin's string format for the speed unit; `spdVals` are the
speed values after the external unit converter has been applied
(direction values are used unconverted, and rounded to whole degrees).
-/
def windRoseOutput (unitLabel : String → String) (speedRound : ℕ)
    (dirUnit spdUnit : Option String)
    (dirVals spdVals : List (Option ℚ)) : List WRSeries :=
  let windDirRound := dirVals.map (Option.map (fun q => pyRoundPlaces q 0))
  let windSpeedRound := spdVals.map (Option.map (fun q => pyRoundPlaces q speedRound))
  match dirUnit, spdUnit with
  | some _, some u =>
      let merged := windDirRound.zip windSpeedRound
      let buckets := (List.finRange 7).map (fun i =>
        create_windRose_data (merged.filter (fun p => beaufortBin u p.2 == some i)))
      let normed := windRoseNormalize buckets
      let names := (List.finRange 7).map (fun i => binRangeLabel u i ++ " " ++ unitLabel u)
      (names.zip normed).map (fun p => ⟨p.1, p.2⟩)
  | _, _ => [⟨"", []⟩]

/-!
## `_roundNone` and the standard / barometer / mirrored / group-by paths
-/

/-- A Python value reaching `_roundNone`: `None`, a number, or a string. -/
inductive PyVal where
  | null
  | num (q : ℚ)
  | str (s : String)
deriving DecidableEq

/--
Embedding of `_roundNone(value, places)`: pass `None` through; otherwise try
`round(value, places)` and turn any exception (e.g. rounding a
non-numeric string raises `TypeError`) into `None`.
-/
def roundNone (value : PyVal) (places : ℕ) : PyVal :=
  match value with
  | .null => .null
  | .num q => .num (pyRoundPlaces q places)
  | .str _ => .null

/--
Modelled from the spec (§3, §4.4): the external weewx unit converter
maps each non-null value through the unit-conversion function and
preserves null.
-/
def convertVal (f : ℚ → ℚ) (x : Option ℚ) : Option ℚ :=
  x.map f

/-- Restriction of `_roundNone` to the numeric vector elements (float or `None`). -/
def roundNoneQ (places : ℕ) (x : Option ℚ) : Option ℚ :=
  x.map (fun q => pyRoundPlaces q places)

/-- The mirrored-series step: negate every non-`None` entry in place. -/
def mirrorVals (mirrored : Bool) (vals : List (Option ℚ)) : List (Option ℚ) :=
  if mirrored then vals.map (Option.map (fun q => -q)) else vals

/--
The standard-observation value pipeline of `_getObservationData`:
convert the fetched vector, round each entry with `_roundNone` at the
unit's precision, then negate non-null entries when mirrored.
-/
def standardSeriesValues (f : ℚ → ℚ) (places : ℕ) (mirrored : Bool)
    (vals : List (Option ℚ)) : List (Option ℚ) :=
  mirrorVals mirrored ((vals.map (convertVal f)).map (roundNoneQ places))

/--
The `barometer` special case: same pipeline but with the inline
`round(x, usageRound) if x is not None else None` comprehension.
-/
def barometerSeriesValues (f : ℚ → ℚ) (places : ℕ) (mirrored : Bool)
    (vals : List (Option ℚ)) : List (Option ℚ) :=
  mirrorVals mirrored
    ((vals.map (convertVal f)).map (fun x => x.map (fun q => pyRoundPlaces q places)))

/--
The group-by (`xaxis_groupby`) value pipeline: the SQL query the
source builds wraps the aggregate in `IFNULL(agg(obs), 0)`, so a null
category aggregate arrives as `0`; each row value is then passed
through the converter and negated when mirrored.
-/
def xaxisGroupbyValues (f : ℚ → ℚ) (mirrored : Bool)
    (rows : List (Option ℚ)) : List (Option ℚ) :=
  let vals := rows.map (fun r => convertVal f (some (r.getD 0)))
  if mirrored then vals.map (Option.map (fun q => -q)) else vals

/-!
## The series loop of `run` (aggregation-interval skip)
-/

/--
One series section of a chart, reduced to the fields the skip logic of
`run` reads: the section name, the raw `aggregate_type` option, the
`aggregate_interval` option (`none` when absent, which makes
`as_int` raise `KeyError`), and the payload the rest of the pipeline
would compute for it.
-/
structure SeriesCfg where
  name : String
  aggregate_type : Option String
  aggregate_interval : Option ℤ
  data : List ℚ
deriving DecidableEq

/--
The skip condition of `run`: an `aggregate_type` outside
`(None, '', 'None', 'none')` together with a missing
`aggregate_interval` raises `KeyError` in `as_int`, which `run` logs
and answers with `continue`.
-/
def aggregateSkipped (cfg : SeriesCfg) : Bool :=
  match cfg.aggregate_type with
  | none => false
  | some t =>
      if t = "" ∨ t = "None" ∨ t = "none" then false
      else cfg.aggregate_interval.isNone

/--
Compile one series: `none` exactly when the series is skipped by the
aggregation check, otherwise its name paired with its compiled data.
(The source writes two metadata keys into the output dict before the
check; the series' name and data entries are only written after it.)
-/
def compileSeries (cfg : SeriesCfg) : Option (String × List ℚ) :=
  if aggregateSkipped cfg then none else some (cfg.name, cfg.data)

/-- The series loop of `run` for one chart: `continue` drops only the offender. -/
def compileChartSeries (ss : List SeriesCfg) : List (String × List ℚ) :=
  ss.filterMap compileSeries

/-- The chart loop of `run` for one chart group. -/
def compileGroup (charts : List (String × List SeriesCfg)) :
    List (String × List (String × List ℚ)) :=
  charts.map (fun c => (c.1, compileChartSeries c.2))

/-- A series with no aggregation options, used as the witness's survivor. -/
def goodCfg : SeriesCfg :=
  ⟨"outTemp", none, none, [1]⟩

/-- A series with an aggregation type but no interval: it gets skipped. -/
def badCfg : SeriesCfg :=
  ⟨"windGust", some ("max"), none, [2]⟩

/-!
## `_highchartsSeriesOptionsToInt` and `to_int`
-/

/--
A value held in a compiled series dict: `None`, an integer, a
configuration string, a configuration string list, or a nested dict.
-/
inductive HVal where
  | null
  | int (n : ℤ)
  | str (s : String)
  | list (xs : List String)
  | dict (ps : List (String × HVal))

/-- Digit-run parser used to model Python 2 `int(str)`. -/
def digitsToNat (cs : List Char) : Option ℕ :=
  if cs ≠ [] ∧ cs.all Char.isDigit then
    some (cs.foldl (fun a c => a * 10 + (c.toNat - 48)) 0)
  else none

/-- Python `str.strip()`: drop surrounding whitespace (character level). -/
def pyStripChars (cs : List Char) : List Char :=
  ((cs.dropWhile Char.isWhitespace).reverse.dropWhile Char.isWhitespace).reverse

/--
Python 2 `int(s)` on a string: strip surrounding whitespace, allow one
leading sign, then a non-empty run of decimal digits; anything else
raises `ValueError` (modelled as `none`).
-/
def pyIntParse (s : String) : Option ℤ :=
  match pyStripChars s.data with
  | '-' :: rest => (digitsToNat rest).map (fun n => -(n:ℤ))
  | '+' :: rest => (digitsToNat rest).map (fun n => (n:ℤ))
  | cs => (digitsToNat cs).map (fun n => (n:ℤ))

/-- Python `str.lower()` (character level). -/
def pyLower (s : String) : List Char :=
  s.data.map Char.toLower

/--
Embedding of `weeutil.weeutil.to_int(x)`: a string spelling `none`
(case-insensitive) becomes `None`; `None` stays `None`; otherwise
`int(x)`, whose failure (modelled as `none` here) the caller catches.
Dict values never reach it: the caller recurses into dicts first.
-/
def to_int : HVal → Option HVal
  | .null => some .null
  | .int n => some (.int n)
  | .str s =>
      if pyLower s = "none".data then some .null
      else (pyIntParse s).map .int
  | .list _ => none
  | .dict _ => none

mutual

/--
The per-value action of `_highchartsSeriesOptionsToInt`: recurse into
nested dicts; otherwise try `to_int` and keep the old value when it
raises.
-/
def normalizeVal : HVal → HVal
  | .dict qs => .dict (normalizePairs qs)
  | v =>
      match to_int v with
      | some w => w
      | none => v

/-- The key/value iteration of `_highchartsSeriesOptionsToInt`. -/
def normalizePairs : List (String × HVal) → List (String × HVal)
  | [] => []
  | (k, v) :: rest => (k, normalizeVal v) :: normalizePairs rest

end

/--
Embedding of `_highchartsSeriesOptionsToInt(d)` on a series dict: every value is
normalized in place, keys are untouched.
-/
def seriesOptionsToInt (ps : List (String × HVal)) : List (String × HVal) :=
  normalizePairs ps

/-!
## Helper lemmas on Python rounding
-/

theorem pyRound_err (q : ℚ) : |(pyRound q : ℚ) - q| ≤ 1/2 := by
  unfold pyRound
  split_ifs with hq
  · have h1 : ((⌊q + 1/2⌋ : ℤ) : ℚ) ≤ q + 1/2 := Int.floor_le _
    have h2 : q + 1/2 - 1 < ((⌊q + 1/2⌋ : ℤ) : ℚ) := Int.sub_one_lt_floor _
    rw [abs_le]
    constructor <;> linarith
  · have h1 : (q - 1/2 : ℚ) ≤ ((⌈q - 1/2⌉ : ℤ) : ℚ) := Int.le_ceil _
    have h2 : ((⌈q - 1/2⌉ : ℤ) : ℚ) < q - 1/2 + 1 := Int.ceil_lt_add_one _
    rw [abs_le]
    constructor <;> linarith

theorem pyRound_mono {q r : ℚ} (h : q ≤ r) : pyRound q ≤ pyRound r := by
  unfold pyRound
  split_ifs with hq hr hr
  · exact Int.floor_le_floor (by linarith)
  · exact absurd (le_trans hq h) hr
  · have h1 : (⌈q - 1/2⌉ : ℤ) ≤ 0 := Int.ceil_le.mpr (by push_cast; linarith)
    have h2 : (0 : ℤ) ≤ ⌊r + 1/2⌋ := Int.le_floor.mpr (by push_cast; linarith)
    omega
  · exact Int.ceil_le_ceil (by linarith)

theorem pyRoundPlaces_mono (n : ℕ) {q r : ℚ} (h : q ≤ r) :
    pyRoundPlaces q n ≤ pyRoundPlaces r n := by
  unfold pyRoundPlaces
  have hp : (0:ℚ) < (10:ℚ)^n := by positivity
  have h1 : q * (10:ℚ)^n ≤ r * (10:ℚ)^n :=
    mul_le_mul_of_nonneg_right h (le_of_lt hp)
  have h2 : ((pyRound (q * (10:ℚ)^n) : ℤ) : ℚ) ≤ ((pyRound (r * (10:ℚ)^n) : ℤ) : ℚ) := by
    exact_mod_cast pyRound_mono h1
  gcongr

theorem pyRoundPlaces_zero (n : ℕ) : pyRoundPlaces 0 n = 0 := by
  unfold pyRoundPlaces pyRound
  norm_num

/-!
## Rain counter lemmas and claims C1, C6
-/

theorem rainGo_eq_specGo (vals : List (Option ℚ)) :
    ∀ acc : ℚ, rainGo acc vals = rainAccumulatorSpecGo 2 acc vals := by
  induction vals with
  | nil => intro acc; rfl
  | cons v rest ih =>
      intro acc
      simp only [rainGo, rainAccumulatorSpecGo, ih]

theorem rainGo_length (vals : List (Option ℚ)) :
    ∀ acc : ℚ, (rainGo acc vals).length = vals.length := by
  induction vals with
  | nil => intro acc; rfl
  | cons v rest ih =>
      intro acc
      simp only [rainGo, List.length_cons, ih]

theorem rainGo_chain (vals : List (Option ℚ)) :
    ∀ acc : ℚ, (∀ v ∈ vals, ∀ q : ℚ, v = some q → 0 ≤ q) →
      List.Chain' (· ≤ ·) (rainGo acc vals) := by
  induction vals with
  | nil => intro acc _; simp [rainGo]
  | cons v rest ih =>
      intro acc h
      have hrest : ∀ w ∈ rest, ∀ q : ℚ, w = some q → 0 ≤ q :=
        fun w hw => h w (List.mem_cons_of_mem _ hw)
      cases rest with
      | nil => simp [rainGo]
      | cons w rest' =>
          have hd : 0 ≤ w.getD 0 := by
            cases w with
            | none => simp
            | some q =>
                simpa using hrest (some q) (List.mem_cons_self _ _) q rfl
          refine List.Chain'.cons ?_ ?_
          · exact pyRoundPlaces_mono 2 (by linarith)
          · exact ih (acc + v.getD 0) hrest

theorem rainGo_allNull (vals : List (Option ℚ)) :
    ∀ acc : ℚ, (∀ v ∈ vals, v = none) →
      rainGo acc vals = List.replicate vals.length (pyRoundPlaces acc 2) := by
  induction vals with
  | nil => intro acc _; rfl
  | cons v rest ih =>
      intro acc h
      have hv : v = none := h v (List.mem_cons_self _ _)
      subst hv
      have hrest : ∀ w ∈ rest, w = none := fun w hw => h w (List.mem_cons_of_mem _ hw)
      simp only [rainGo, Option.getD_none, add_zero, List.length_cons,
        List.replicate_succ, ih _ hrest]

/--
Claim C1, counterexample: the rain counter does not round the running
sum to the observation's rounding precision; it always rounds to two
decimal places.  At precision 1 and the single fetched value `0.25`
the code emits `0.25` while the spec's accumulator would emit `0.3`.
-/
theorem rainCounter_not_observation_precision :
    rainCounterData [some (1/4)] ≠ rainAccumulatorSpec 1 [some (1/4)] := by
  norm_num [rainCounterData, rainAccumulatorSpec, rainGo, rainAccumulatorSpecGo,
    pyRoundPlaces, pyRound]

/--
Claim C1, amended: for every fetched rainTotal vector, the compiled
series iterates the raw values in chronological order, treats each
null value as 0, adds it to a running sum that never resets within the
span, rounds the running sum to a fixed two decimal places at each
step (regardless of the observation's configured rounding precision),
and emits exactly one accumulated point per input point; inputs
0.1, 0.0, 0.2 yield the cumulative values [0.10, 0.10, 0.30].
-/
theorem rainCounter_accumulates_and_rounds_to_two_decimals :
    (∀ vals : List (Option ℚ), rainCounterData vals = rainAccumulatorSpec 2 vals)
    ∧ (∀ vals : List (Option ℚ), (rainCounterData vals).length = vals.length)
    ∧ rainCounterData [some 0.1, some 0, some 0.2] = [0.1, 0.1, 0.3] := by
  refine ⟨fun vals => rainGo_eq_specGo vals 0, fun vals => rainGo_length vals 0, ?_⟩
  norm_num [rainCounterData, rainGo, pyRoundPlaces, pyRound]

/--
Claim C6: the accumulated rain output is non-decreasing whenever every
non-null input is non-negative, and a span of all-null inputs yields a
constant output sequence (the running sum stays at its initial value
0, which is the last valid sum when no input is valid).
-/
theorem rainCounter_monotone_and_constant_on_null :
    (∀ vals : List (Option ℚ), (∀ v ∈ vals, ∀ q : ℚ, v = some q → 0 ≤ q) →
      List.Chain' (· ≤ ·) (rainCounterData vals))
    ∧ (∀ vals : List (Option ℚ), (∀ v ∈ vals, v = none) →
      rainCounterData vals = List.replicate vals.length 0) := by
  constructor
  · intro vals h
    exact rainGo_chain vals 0 h
  · intro vals h
    rw [rainCounterData, rainGo_allNull vals 0 h, pyRoundPlaces_zero]

/--
Witness for C6 at concrete inputs: a non-negative vector with an
interior null gives a non-decreasing output, and an all-null vector
gives the constant zero sequence.
-/
theorem rainCounter_monotone_and_constant_on_null_witness :
    List.Chain' (· ≤ ·) (rainCounterData [some 1, none, some 2])
    ∧ rainCounterData [none, none] = List.replicate 2 0 := by
  constructor
  · refine rainCounter_monotone_and_constant_on_null.1 [some 1, none, some 2] ?_
    intro v hv q hvq
    subst hvq
    simp at hv
    rcases hv with rfl | rfl <;> norm_num
  · exact rainCounter_monotone_and_constant_on_null.2 [none, none] (by simp)

/-!
## Wind-rose normalization: claim C2
-/

theorem sum_map_mul_const (l : List ℚ) (c : ℚ) :
    (l.map (fun v => v * c)).sum = l.sum * c := by
  induction l with
  | nil => simp
  | cons x rest ih => simp [ih, add_mul]

theorem sum_round_err (l : List ℚ) :
    |(l.map (fun v => (pyRound v : ℚ))).sum - l.sum| ≤ (l.length : ℚ) / 2 := by
  induction l with
  | nil => simp
  | cons x rest ih =>
      have hx := pyRound_err x
      have h : (pyRound x : ℚ) + (rest.map (fun v => (pyRound v : ℚ))).sum - (x + rest.sum)
          = ((pyRound x : ℚ) - x) + ((rest.map (fun v => (pyRound v : ℚ))).sum - rest.sum) := by
        ring
      simp only [List.map_cons, List.sum_cons, List.length_cons, h]
      calc |((pyRound x : ℚ) - x) + ((rest.map (fun v => (pyRound v : ℚ))).sum - rest.sum)|
          ≤ |(pyRound x : ℚ) - x| + |(rest.map (fun v => (pyRound v : ℚ))).sum - rest.sum| :=
            abs_add _ _
        _ ≤ 1/2 + (rest.length : ℚ) / 2 := add_le_add hx ih
        _ = ((rest.length : ℚ) + 1) / 2 := by ring
        _ = (((rest.length : ℕ) + 1 : ℕ) : ℚ) / 2 := by push_cast; ring

theorem sum_nonneg_all_zero (l : List ℚ) :
    (∀ v ∈ l, 0 ≤ v) → l.sum = 0 → ∀ v ∈ l, v = 0 := by
  induction l with
  | nil => intro _ _ v hv; exact absurd hv (List.not_mem_nil v)
  | cons x rest ih =>
      intro h hs v hv
      have hx : 0 ≤ x := h x (List.mem_cons_self _ _)
      have hrest : ∀ w ∈ rest, 0 ≤ w := fun w hw => h w (List.mem_cons_of_mem _ hw)
      have hrs : 0 ≤ rest.sum := List.sum_nonneg hrest
      simp only [List.sum_cons] at hs
      have hx0 : x = 0 := by linarith
      have hrs0 : rest.sum = 0 := by linarith
      rcases List.mem_cons.mp hv with rfl | hv2
      · exact hx0
      · exact ih hrest hrs0 v hv2

/--
Claim C2: in the wind-rose percentage normalization, when the grand
total of all bin/direction magnitudes is positive every bucket is
replaced by `round(value / total * 100)` and the output values sum to
100 up to rounding error (at most half a unit per bucket); when the
grand total is zero the division is never performed and — magnitudes
being non-negative sums of wind speeds — every bucket remains zero.
-/
theorem windRose_normalization_guarded (gs : List (List ℚ)) :
    (0 < totalMag gs →
      windRoseNormalize gs
          = gs.map (List.map (fun v => ((pyRound (v / totalMag gs * 100) : ℤ) : ℚ)))
        ∧ |((windRoseNormalize gs).map List.sum).sum - 100|
            ≤ (((gs.map List.length).sum : ℕ) : ℚ) / 2)
    ∧ (totalMag gs = 0 →
      windRoseNormalize gs = gs
        ∧ ((∀ g ∈ gs, ∀ v ∈ g, 0 ≤ v) → ∀ g ∈ gs, ∀ v ∈ g, v = 0)) := by
  constructor
  · intro hpos
    have hne : totalMag gs ≠ 0 := ne_of_gt hpos
    have heq : windRoseNormalize gs
        = gs.map (List.map (fun v => ((pyRound (v / totalMag gs * 100) : ℤ) : ℚ))) := by
      simp only [windRoseNormalize, if_pos hpos]
    refine ⟨heq, ?_⟩
    set s := totalMag gs with hs
    have hsum1 : ((windRoseNormalize gs).map List.sum).sum
        = ((gs.flatten.map (fun v => v / s * 100)).map (fun v => (pyRound v : ℚ))).sum := by
      rw [heq, ← List.sum_flatten, ← List.map_flatten, List.map_map]
      rfl
    have hsum2 : (gs.flatten.map (fun v => v / s * 100)).sum = 100 := by
      have h1 : (fun v : ℚ => v / s * 100) = (fun v : ℚ => v * (100 / s)) := by
        funext v; ring
      have h2 : gs.flatten.sum = s := by
        rw [hs, totalMag]; exact List.sum_flatten
      rw [h1, sum_map_mul_const, h2]
      field_simp
    have herr := sum_round_err (gs.flatten.map (fun v => v / s * 100))
    rw [hsum2] at herr
    have hlen : ((gs.flatten.map (fun v => v / s * 100)).length : ℚ)
        = (((gs.map List.length).sum : ℕ) : ℚ) := by
      rw [List.length_map, List.length_flatten]
    rw [hsum1]
    rw [hlen] at herr
    exact herr
  · intro h0
    have heq : windRoseNormalize gs = gs := by
      simp only [windRoseNormalize, h0]
      norm_num
    refine ⟨heq, ?_⟩
    intro hnn g hg v hv
    have hsums : ∀ x ∈ gs.map List.sum, 0 ≤ x := by
      intro x hx
      rcases List.mem_map.mp hx with ⟨g', hg', rfl⟩
      exact List.sum_nonneg (hnn g' hg')
    have hz : ∀ x ∈ gs.map List.sum, x = 0 :=
      sum_nonneg_all_zero _ hsums h0
    have hgz : g.sum = 0 :=
      hz g.sum (List.mem_map_of_mem List.sum hg)
    exact sum_nonneg_all_zero g (hnn g hg) hgz v hv

/--
Witness for C2 at a concrete grid: total 2 > 0, both buckets become
`round(1/2*100) = 50`, and the output sum is within the rounding bound.
-/
theorem windRose_normalization_guarded_witness :
    windRoseNormalize [[(1:ℚ), 1]] = [[50, 50]]
    ∧ |((windRoseNormalize [[(1:ℚ), 1]]).map List.sum).sum - 100|
        ≤ ((([[(1:ℚ), 1]].map List.length).sum : ℕ) : ℚ) / 2 := by
  have h := (windRose_normalization_guarded [[(1:ℚ), 1]]).1 (by norm_num [totalMag])
  refine ⟨?_, h.2⟩
  rw [h.1]
  norm_num [totalMag, pyRound]

/-!
## Compass bucket formula: claim C3
-/

/--
Claim C3, counterexample: the claimed bucket formula
`round((d + 11.25) / 22.5) mod 16` disagrees with the code at the
whole-degree direction 30°: the code's truncating `int` puts 30° in
bucket 1 (NNE, correct for the boundaries at 11.25° + k·22.5°) while
rounding would put it in bucket 2.
-/
theorem windroseIndex_not_round_formula :
    windroseIndex 30 = 1 ∧ ((pyRound ((30 + 11.25) / 22.5)) % 16).toNat = 2 := by
  constructor
  · norm_num [windroseIndex, pyInt, pyRound]
  · norm_num [pyRound]
    decide

/--
Claim C3, amended: for every non-null wind-direction value `d ≥ 0`,
the compass bucket selected when accumulating its speed magnitude is
`⌊(d + 11.25) / 22.5⌋ mod 16` (truncating integer conversion, not
rounding); directions 0°, 22.5°, and 359° map to buckets 0, 1, and 0.
-/
theorem windroseIndex_truncation_formula :
    (∀ d : ℚ, 0 ≤ d → windroseIndex d = ((⌊(d + 11.25) / 22.5⌋ % 16).toNat))
    ∧ windroseIndex 0 = 0 ∧ windroseIndex 22.5 = 1 ∧ windroseIndex 359 = 0 := by
  refine ⟨?_, ?_, ?_, ?_⟩
  · intro d hd
    have h : (0:ℚ) ≤ (d + 11.25) / 22.5 := by positivity
    simp only [windroseIndex, pyInt, if_pos h]
  · norm_num [windroseIndex, pyInt]
  · norm_num [windroseIndex, pyInt]
  · norm_num [windroseIndex, pyInt]

/-- Witness for C3 at the concrete direction 45°. -/
theorem windroseIndex_truncation_formula_witness :
    windroseIndex 45 = ((⌊((45:ℚ) + 11.25) / 22.5⌋ % 16).toNat) :=
  windroseIndex_truncation_formula.1 45 (by norm_num)

/-!
## Speed bins: claim C4
-/

theorem beaufortBin_mph_eq (u : String)
    (hu : u = "mile_per_hour" ∨ u = "mile_per_hour2") (q : ℚ) :
    beaufortBin u (some q) =
      if q < 1 then some 0
      else if 1 ≤ q ∧ q ≤ 3 then some 1
      else if 4 ≤ q ∧ q ≤ 7 then some 2
      else if 8 ≤ q ∧ q ≤ 12 then some 3
      else if 13 ≤ q ∧ q ≤ 18 then some 4
      else if 19 ≤ q ∧ q ≤ 24 then some 5
      else if 25 ≤ q then some 6
      else none := by
  rcases hu with rfl | rfl <;>
    simp [beaufortBin, pyLtN, pyGeN, pyLeN, Bool.and_eq_true, decide_eq_true_eq]

theorem beaufortBin_kph_eq (u : String)
    (hu : u = "km_per_hour" ∨ u = "km_per_hour2") (q : ℚ) :
    beaufortBin u (some q) =
      if q < 2 then some 0
      else if 2 ≤ q ∧ q ≤ 5 then some 1
      else if 6 ≤ q ∧ q ≤ 11 then some 2
      else if 12 ≤ q ∧ q ≤ 19 then some 3
      else if 20 ≤ q ∧ q ≤ 28 then some 4
      else if 29 ≤ q ∧ q ≤ 38 then some 5
      else if 39 ≤ q then some 6
      else none := by
  rcases hu with rfl | rfl <;>
    simp [beaufortBin, pyLtN, pyGeN, pyLeN, Bool.and_eq_true, decide_eq_true_eq]

theorem beaufortBin_mps_eq (u : String)
    (hu : u = "meter_per_second" ∨ u = "meter_per_second2") (q : ℚ) :
    beaufortBin u (some q) =
      if q < 0.5 then some 0
      else if 0.5 ≤ q ∧ q ≤ 1.5 then some 1
      else if 1.6 ≤ q ∧ q ≤ 3.3 then some 2
      else if 3.4 ≤ q ∧ q ≤ 5.5 then some 3
      else if 5.6 ≤ q ∧ q ≤ 7.9 then some 4
      else if 8 ≤ q ∧ q ≤ 10.7 then some 5
      else if 10.8 ≤ q then some 6
      else none := by
  rcases hu with rfl | rfl <;>
    simp [beaufortBin, pyLtN, pyGeN, pyLeN, Bool.and_eq_true, decide_eq_true_eq]

theorem beaufortBin_knot_eq (u : String)
    (hu : u = "knot" ∨ u = "knot2") (q : ℚ) :
    beaufortBin u (some q) =
      if q < 1 then some 0
      else if 1 ≤ q ∧ q ≤ 3 then some 1
      else if 4 ≤ q ∧ q ≤ 6 then some 2
      else if 7 ≤ q ∧ q ≤ 10 then some 3
      else if 11 ≤ q ∧ q ≤ 16 then some 4
      else if 17 ≤ q ∧ q ≤ 21 then some 5
      else if 22 ≤ q then some 6
      else none := by
  rcases hu with rfl | rfl <;>
    simp [beaufortBin, pyLtN, pyGeN, pyLeN, Bool.and_eq_true, decide_eq_true_eq]

theorem mphBinPred_disjoint (q : ℚ) (i j : Fin 7) :
    mphBinPred i q → mphBinPred j q → i = j := by
  intro hi hj
  fin_cases i <;> fin_cases j <;> simp_all [mphBinPred] <;> linarith

theorem kphBinPred_disjoint (q : ℚ) (i j : Fin 7) :
    kphBinPred i q → kphBinPred j q → i = j := by
  intro hi hj
  fin_cases i <;> fin_cases j <;> simp_all [kphBinPred] <;> linarith

theorem mpsBinPred_disjoint (q : ℚ) (i j : Fin 7) :
    mpsBinPred i q → mpsBinPred j q → i = j := by
  intro hi hj
  fin_cases i <;> fin_cases j <;> simp_all [mpsBinPred] <;> linarith

theorem knotBinPred_disjoint (q : ℚ) (i j : Fin 7) :
    knotBinPred i q → knotBinPred j q → i = j := by
  intro hi hj
  fin_cases i <;> fin_cases j <;> simp_all [knotBinPred] <;> linarith

theorem speedBins_mph (u : String)
    (hu : u = "mile_per_hour" ∨ u = "mile_per_hour2") :
    (∀ (q : ℚ) (i j : Fin 7), speedBinPred u i q → speedBinPred u j q → i = j)
    ∧ (∀ (q : ℚ) (i : Fin 7), beaufortBin u (some q) = some i → speedBinPred u i q)
    ∧ (∀ n : ℤ, ∃ i : Fin 7, beaufortBin u (some (n:ℚ)) = some i) := by
  have hpred : ∀ (i : Fin 7) (q : ℚ), speedBinPred u i q ↔ mphBinPred i q := by
    intro i q
    rcases hu with rfl | rfl <;> simp [speedBinPred]
  refine ⟨?_, ?_, ?_⟩
  · intro q i j hi hj
    exact mphBinPred_disjoint q i j ((hpred i q).mp hi) ((hpred j q).mp hj)
  · intro q i h
    rw [hpred]
    rw [beaufortBin_mph_eq u hu] at h
    split_ifs at h with h0 h1 h2 h3 h4 h5 h6 <;>
      first
        | exact Option.noConfusion h
        | (injection h with h7; subst h7; simp_all [mphBinPred])
  · intro n
    rw [beaufortBin_mph_eq u hu]
    simp only [← Int.lt_ceil, ← Int.ceil_le, ← Int.le_floor]
    norm_num
    split_ifs <;> first | exact ⟨_, rfl⟩ | omega

theorem speedBins_kph (u : String)
    (hu : u = "km_per_hour" ∨ u = "km_per_hour2") :
    (∀ (q : ℚ) (i j : Fin 7), speedBinPred u i q → speedBinPred u j q → i = j)
    ∧ (∀ (q : ℚ) (i : Fin 7), beaufortBin u (some q) = some i → speedBinPred u i q)
    ∧ (∀ n : ℤ, ∃ i : Fin 7, beaufortBin u (some (n:ℚ)) = some i) := by
  have hpred : ∀ (i : Fin 7) (q : ℚ), speedBinPred u i q ↔ kphBinPred i q := by
    intro i q
    rcases hu with rfl | rfl <;> simp [speedBinPred]
  refine ⟨?_, ?_, ?_⟩
  · intro q i j hi hj
    exact kphBinPred_disjoint q i j ((hpred i q).mp hi) ((hpred j q).mp hj)
  · intro q i h
    rw [hpred]
    rw [beaufortBin_kph_eq u hu] at h
    split_ifs at h with h0 h1 h2 h3 h4 h5 h6 <;>
      first
        | exact Option.noConfusion h
        | (injection h with h7; subst h7; simp_all [kphBinPred])
  · intro n
    rw [beaufortBin_kph_eq u hu]
    simp only [← Int.lt_ceil, ← Int.ceil_le, ← Int.le_floor]
    norm_num
    split_ifs <;> first | exact ⟨_, rfl⟩ | omega

theorem speedBins_mps (u : String)
    (hu : u = "meter_per_second" ∨ u = "meter_per_second2") :
    (∀ (q : ℚ) (i j : Fin 7), speedBinPred u i q → speedBinPred u j q → i = j)
    ∧ (∀ (q : ℚ) (i : Fin 7), beaufortBin u (some q) = some i → speedBinPred u i q)
    ∧ (∀ n : ℤ, ∃ i : Fin 7, beaufortBin u (some (n:ℚ)) = some i) := by
  have hpred : ∀ (i : Fin 7) (q : ℚ), speedBinPred u i q ↔ mpsBinPred i q := by
    intro i q
    rcases hu with rfl | rfl <;> simp [speedBinPred]
  refine ⟨?_, ?_, ?_⟩
  · intro q i j hi hj
    exact mpsBinPred_disjoint q i j ((hpred i q).mp hi) ((hpred j q).mp hj)
  · intro q i h
    rw [hpred]
    rw [beaufortBin_mps_eq u hu] at h
    split_ifs at h with h0 h1 h2 h3 h4 h5 h6 <;>
      first
        | exact Option.noConfusion h
        | (injection h with h7; subst h7; simp_all [mpsBinPred])
  · intro n
    rw [beaufortBin_mps_eq u hu]
    simp only [← Int.lt_ceil, ← Int.ceil_le, ← Int.le_floor]
    have hc0 : (⌈(0.5:ℚ)⌉ : ℤ) = 1 := by rw [Int.ceil_eq_iff]; norm_num
    have hf1 : (⌊(1.5:ℚ)⌋ : ℤ) = 1 := by rw [Int.floor_eq_iff]; norm_num
    have hc1 : (⌈(1.6:ℚ)⌉ : ℤ) = 2 := by rw [Int.ceil_eq_iff]; norm_num
    have hf2 : (⌊(3.3:ℚ)⌋ : ℤ) = 3 := by rw [Int.floor_eq_iff]; norm_num
    have hc2 : (⌈(3.4:ℚ)⌉ : ℤ) = 4 := by rw [Int.ceil_eq_iff]; norm_num
    have hf3 : (⌊(5.5:ℚ)⌋ : ℤ) = 5 := by rw [Int.floor_eq_iff]; norm_num
    have hc3 : (⌈(5.6:ℚ)⌉ : ℤ) = 6 := by rw [Int.ceil_eq_iff]; norm_num
    have hf4 : (⌊(7.9:ℚ)⌋ : ℤ) = 7 := by rw [Int.floor_eq_iff]; norm_num
    have hc4 : (⌈(8:ℚ)⌉ : ℤ) = 8 := by rw [Int.ceil_eq_iff]; norm_num
    have hf5 : (⌊(10.7:ℚ)⌋ : ℤ) = 10 := by rw [Int.floor_eq_iff]; norm_num
    have hc5 : (⌈(10.8:ℚ)⌉ : ℤ) = 11 := by rw [Int.ceil_eq_iff]; norm_num
    rw [hc0, hf1, hc1, hf2, hc2, hf3, hc3, hf4, hc4, hf5, hc5]
    split_ifs <;> first | exact ⟨_, rfl⟩ | omega

theorem speedBins_knot (u : String)
    (hu : u = "knot" ∨ u = "knot2") :
    (∀ (q : ℚ) (i j : Fin 7), speedBinPred u i q → speedBinPred u j q → i = j)
    ∧ (∀ (q : ℚ) (i : Fin 7), beaufortBin u (some q) = some i → speedBinPred u i q)
    ∧ (∀ n : ℤ, ∃ i : Fin 7, beaufortBin u (some (n:ℚ)) = some i) := by
  have hpred : ∀ (i : Fin 7) (q : ℚ), speedBinPred u i q ↔ knotBinPred i q := by
    intro i q
    rcases hu with rfl | rfl <;> simp [speedBinPred]
  refine ⟨?_, ?_, ?_⟩
  · intro q i j hi hj
    exact knotBinPred_disjoint q i j ((hpred i q).mp hi) ((hpred j q).mp hj)
  · intro q i h
    rw [hpred]
    rw [beaufortBin_knot_eq u hu] at h
    split_ifs at h with h0 h1 h2 h3 h4 h5 h6 <;>
      first
        | exact Option.noConfusion h
        | (injection h with h7; subst h7; simp_all [knotBinPred])
  · intro n
    rw [beaufortBin_knot_eq u hu]
    simp only [← Int.lt_ceil, ← Int.ceil_le, ← Int.le_floor]
    norm_num
    split_ifs <;> first | exact ⟨_, rfl⟩ | omega

/--
Claim C4, counterexample: the speed bins do not cover every possible
speed value: a merged sample whose rounded speed is 3.5 mph satisfies
none of the seven mph branch conditions and is appended to no group —
it is silently dropped.
-/
theorem mph_bins_gap_drops_sample :
    beaufortBin ("mile_per_hour") (some (7/2)) = none := by
  rw [beaufortBin_mph_eq _ (Or.inl rfl)]
  norm_num

/--
Claim C4, amended: for every wind-speed unit system of the source
(mph: `<1, 1-3, 4-7, 8-12, 13-18, 19-24, 25+`; km/h: `<2, 2-5, 6-11,
12-19, 20-28, 29-38, 39+`; m/s: `<0.5, 0.5-1.5, 1.6-3.3, 3.4-5.5,
5.6-7.9, 8-10.7, 10.8+`; knots: `<1, 1-3, 4-6, 7-10, 11-16, 17-21,
22+`) the seven bin conditions are pairwise disjoint and the branch
chain assigns a merged sample with non-null rounded speed exactly the
bin whose condition its speed satisfies, so no sample is counted
twice; every whole-number speed falls into exactly one bin, but speeds
falling strictly inside the fractional gaps between consecutive bins
(such as 3.5 mph) match no bin and are silently dropped.
-/
theorem speed_bins_disjoint_cover_integers :
    ∀ u ∈ (["mile_per_hour", "mile_per_hour2", "km_per_hour", "km_per_hour2",
            "meter_per_second", "meter_per_second2", "knot", "knot2"] : List String),
      (∀ (q : ℚ) (i j : Fin 7), speedBinPred u i q → speedBinPred u j q → i = j)
      ∧ (∀ (q : ℚ) (i : Fin 7), beaufortBin u (some q) = some i → speedBinPred u i q)
      ∧ (∀ n : ℤ, ∃ i : Fin 7, beaufortBin u (some (n:ℚ)) = some i) := by
  intro u hu
  simp only [List.mem_cons, List.not_mem_nil, or_false] at hu
  rcases hu with rfl | rfl | rfl | rfl | rfl | rfl | rfl | rfl
  · exact speedBins_mph _ (Or.inl rfl)
  · exact speedBins_mph _ (Or.inr rfl)
  · exact speedBins_kph _ (Or.inl rfl)
  · exact speedBins_kph _ (Or.inr rfl)
  · exact speedBins_mps _ (Or.inl rfl)
  · exact speedBins_mps _ (Or.inr rfl)
  · exact speedBins_knot _ (Or.inl rfl)
  · exact speedBins_knot _ (Or.inr rfl)

/-- Witness for C4: the concrete speed 2 mph lands in bin 1 and satisfies its condition. -/
theorem speed_bins_disjoint_cover_integers_witness :
    speedBinPred ("mile_per_hour") 1 2 :=
  (speed_bins_disjoint_cover_integers ("mile_per_hour") (by simp)).2.1 2 1
    (by rw [beaufortBin_mph_eq _ (Or.inl rfl)]; norm_num)

/-!
## Empty wind-rose vectors: claim C5
-/

/--
Claim C5: if either the wind-direction or the wind-speed fetch for a
windRose series is empty (signalled by a `None` unit in the returned
value tuple), the compiler emits a single series with an empty name
and an empty data list instead of seven zero-filled 16-element series.
-/
theorem windRose_empty_vector_single_empty_series
    (unitLabel : String → String) (speedRound : ℕ)
    (dirUnit spdUnit : Option String)
    (dirVals spdVals : List (Option ℚ)) :
    fetchIsEmpty dirUnit ∨ fetchIsEmpty spdUnit →
    windRoseOutput unitLabel speedRound dirUnit spdUnit dirVals spdVals
      = [⟨"", []⟩] := by
  intro h
  rcases h with h | h <;> rw [fetchIsEmpty] at h <;> subst h
  · cases spdUnit <;> rfl
  · cases dirUnit <;> rfl

/-- Witness for C5: an empty wind-direction fetch at concrete arguments. -/
theorem windRose_empty_vector_single_empty_series_witness :
    windRoseOutput (fun _ => "mph") 0 none (some ("mile_per_hour")) [] []
      = [⟨"", []⟩] :=
  windRose_empty_vector_single_empty_series _ _ _ _ _ _ (Or.inl rfl)

/-!
## Null preservation: claim C7
-/

/--
Claim C7, counterexample: in the group-by path a null category
aggregate is not preserved: the query's `IFNULL(agg(obs), 0)` turns it
into `0`, so the output holds `0` where the claim requires null.
-/
theorem groupby_null_coerced_to_zero :
    xaxisGroupbyValues id false [none] = [some 0]
    ∧ xaxisGroupbyValues id false [none] ≠ [none] := by
  constructor
  · rfl
  · simp [xaxisGroupbyValues, convertVal]

/--
Claim C7, amended: in the standard-vector, barometer and
mirrored-negation paths a null observation value is preserved through
unit conversion and rounding and emitted as null; in the group-by path
a null category aggregate is instead coerced to zero by the query's
`IFNULL` before conversion (and negated when mirrored), so its output
is the converted zero, never null.
-/
theorem null_preserved_except_groupby :
    (∀ (f : ℚ → ℚ) (p : ℕ) (m : Bool) (vals : List (Option ℚ)) (i : ℕ),
        vals[i]? = some none →
        (standardSeriesValues f p m vals)[i]? = some none)
    ∧ (∀ (f : ℚ → ℚ) (p : ℕ) (m : Bool) (vals : List (Option ℚ)) (i : ℕ),
        vals[i]? = some none →
        (barometerSeriesValues f p m vals)[i]? = some none)
    ∧ (∀ (f : ℚ → ℚ) (m : Bool) (rows : List (Option ℚ)) (i : ℕ),
        rows[i]? = some none →
        (xaxisGroupbyValues f m rows)[i]?
          = some (some (if m then -(f 0) else f 0))) := by
  refine ⟨?_, ?_, ?_⟩
  · intro f p m vals i h
    cases m <;>
      simp [standardSeriesValues, mirrorVals, List.getElem?_map, h,
        convertVal, roundNoneQ]
  · intro f p m vals i h
    cases m <;>
      simp [barometerSeriesValues, mirrorVals, List.getElem?_map, h, convertVal]
  · intro f m rows i h
    cases m <;>
      simp [xaxisGroupbyValues, List.getElem?_map, h, convertVal]

/-- Witness for C7: a null entry survives the standard path at index 0. -/
theorem null_preserved_except_groupby_witness :
    (standardSeriesValues id 2 true [none])[0]? = some none :=
  null_preserved_except_groupby.1 id 2 true [none] 0 rfl

/-!
## Aggregation-interval skip: claim C8
-/

/--
Claim C8: a series configuring an aggregation type but no aggregation
interval is skipped on its own (`continue` leaves the series loop
iteration), while every remaining series of the same chart and every
other chart of the group are compiled and included unchanged in the
group's output.
-/
theorem aggregate_skip_local (pre post : List SeriesCfg) (bad : SeriesCfg)
    (h : aggregateSkipped bad = true)
    (cs1 cs2 : List (String × List SeriesCfg)) (cname : String) :
    compileGroup (cs1 ++ (cname, pre ++ bad :: post) :: cs2)
      = compileGroup cs1
          ++ (cname, compileChartSeries pre ++ compileChartSeries post)
            :: compileGroup cs2 := by
  simp [compileGroup, compileChartSeries, compileSeries, h]

/-- Witness for C8: the skipped series vanishes, its neighbour survives. -/
theorem aggregate_skip_local_witness :
    compileGroup [("chart1", [goodCfg, badCfg])]
      = [("chart1", [("outTemp", [1])])] := by
  have h := aggregate_skip_local [goodCfg] [] badCfg rfl [] [] ("chart1")
  simpa [compileChartSeries, compileSeries, goodCfg, aggregateSkipped] using h

/-!
## Pass-through series options: claim C9
-/

theorem normalizePairs_eq_map (ps : List (String × HVal)) :
    normalizePairs ps = ps.map (fun p => (p.1, normalizeVal p.2)) := by
  induction ps with
  | nil => rfl
  | cons p rest ih => cases p; simp [normalizePairs, ih]

/--
Claim C9, counterexample: a pass-through option is not always
forwarded with its value unchanged: the final
`_highchartsSeriesOptionsToInt` pass coerces the configuration string
"5" (ConfigObj stores all scalars as strings) to the integer 5.
-/
theorem passthrough_string_int_coerced :
    seriesOptionsToInt [("zIndex", HVal.str ("5"))] = [("zIndex", HVal.int 5)]
    ∧ seriesOptionsToInt [("zIndex", HVal.str ("5"))]
        ≠ [("zIndex", HVal.str ("5"))] := by
  constructor
  · rfl
  · intro h
    simp only [seriesOptionsToInt, normalizePairs, normalizeVal] at h
    exact absurd h (by simp [to_int, pyLower, pyIntParse, pyStripChars, digitsToNat])

/--
Claim C9, amended: every pass-through rendering option configured on a
series appears in the series' output object with its key unchanged and
its value mapped by the final normalization pass: a string parseable
as an integer becomes that integer; a string to_int cannot convert
(and which does not spell `none`) is forwarded verbatim, as is every
configuration string list.
-/
theorem passthrough_forwarded_with_to_int :
    (∀ (ps : List (String × HVal)) (k : String) (v : HVal),
        (k, v) ∈ ps → (k, normalizeVal v) ∈ seriesOptionsToInt ps)
    ∧ (∀ (s : String) (n : ℤ), pyLower s ≠ "none".data → pyIntParse s = some n →
        normalizeVal (.str s) = .int n)
    ∧ (∀ s : String, pyLower s ≠ "none".data → pyIntParse s = none →
        normalizeVal (.str s) = .str s)
    ∧ (∀ xs : List String, normalizeVal (.list xs) = .list xs) := by
  refine ⟨?_, ?_, ?_, ?_⟩
  · intro ps k v hv
    rw [seriesOptionsToInt, normalizePairs_eq_map]
    exact List.mem_map_of_mem _ hv
  · intro s n h1 h2
    simp [normalizeVal, to_int, h1, h2]
  · intro s h1 h2
    simp [normalizeVal, to_int, h1, h2]
  · intro xs
    rfl

/-- Witness for C9: the string "auto" is forwarded verbatim. -/
theorem passthrough_forwarded_with_to_int_witness :
    normalizeVal (.str ("auto")) = .str ("auto") :=
  passthrough_forwarded_with_to_int.2.2.1 ("auto") (by decide) (by decide)

/--
Claim C10: `_roundNone` is total and null-propagating: a null input
yields null, a non-numeric string (whose rounding raises an exception)
yields null, and every numeric input yields the rounded number — no
input makes the helper propagate an error.
-/
theorem roundNone_total_null_propagating :
    (∀ places : ℕ, roundNone .null places = .null)
    ∧ (∀ (s : String) (places : ℕ), roundNone (.str s) places = .null)
    ∧ (∀ (q : ℚ) (places : ℕ), roundNone (.num q) places = .num (pyRoundPlaces q places)) :=
  ⟨fun _ => rfl, fun _ _ => rfl, fun _ _ => rfl⟩

end Belchertown
